import Mathlib

/-
  Verification of the summary-extraction core of a personal-finance
  spreadsheet tool (pfin.py).

  The embedding models the methods of InputWorksheet:
  - InputWorksheet._get_colmap       -> getColmap
  - InputWorksheet._summary_col_numbers -> summaryColNumbers
  - InputWorksheet._get_summary_values  -> getSummaryValues
  - InputWorksheet.__init__ (data pipeline part) -> inputWorksheet

  Cell values are text or numbers (gspread returns empty cells as the
  empty string); numbers are modelled as exact rationals.  Fallible
  Python operations (list indexing, the "in" test on a non-string, the
  startswith attribute access on a non-string, the missing-marker
  ValueError) are modelled in an Except monad with an explicit error
  type mirroring the Python exception classes.
-/

namespace Pfin

/-- A spreadsheet cell value as returned by gspread: text or a number.
Empty cells read back as the empty string. -/
inductive Value where
  | str (s : String)
  | num (q : ℚ)
deriving DecidableEq

abbrev DataRow := List Value

abbrev DataRows := List DataRow

/-- Python truthiness of a cell value: a string is truthy iff it is
non-empty, a number is truthy iff it is nonzero. -/
def Value.truthy : Value → Bool
  | .str s => decide (s ≠ "")
  | .num q => decide (q ≠ 0)

/-- The Python runtime errors that the pipeline can raise:
IndexError (out-of-range list access), TypeError (substring test on a
number), AttributeError (startswith on a number), ValueError (the
missing-marker error raised by _get_colmap). -/
inductive Err where
  | indexError
  | typeError
  | attributeError
  | valueError
deriving DecidableEq

instance {ε α : Type} [DecidableEq ε] [DecidableEq α] : DecidableEq (Except ε α) := fun x y =>
  match x, y with
  | .ok a, .ok b =>
    if h : a = b then isTrue (by rw [h]) else isFalse fun hc => h (Except.ok.inj hc)
  | .ok _, .error _ => isFalse fun hc => Except.noConfusion hc
  | .error _, .ok _ => isFalse fun hc => Except.noConfusion hc
  | .error e, .error f =>
    if h : e = f then isTrue (by rw [h]) else isFalse fun hc => h (Except.error.inj hc)

/-- The column designations dict built by InputWorksheet._get_colmap. -/
structure ColMap where
  ordinal : ℕ
  amount : ℕ
  balance : ℕ
  bank_tag : ℕ
  bank_accounts : List ℕ
  where_ : ℕ
  who : ℕ
  what_category : ℕ
  what_item : ℕ
  incomings : ℕ
  date : ℕ
  separator : ℕ
  percentage : ℕ
  share : ℕ
deriving DecidableEq

/-- Python: next((i for i, v in enumerate(row, start=1) if v == key), None).
Scans the row left to right, 1-based, for the first cell equal to the
marker string. -/
def findKeyColAux (key : String) : ℕ → DataRow → Option ℕ
  | _, [] => none
  | i, v :: rest => if v = Value.str key then some i else findKeyColAux key (i + 1) rest

/-- The colmap dict literal of _get_colmap, as a function of the anchor
column number key_col_nr. -/
def colmapOf (k : ℕ) : ColMap :=
  { ordinal := 1
    amount := 2
    balance := 3
    bank_tag := 4
    bank_accounts := List.range' 5 (k - 5)
    where_ := k
    who := k + 1
    what_category := k + 2
    what_item := k + 3
    incomings := k + 4
    date := k + 5
    separator := k + 6
    percentage := k + 7
    share := k + 9 }

/-- InputWorksheet._get_colmap: reads row 2 of the full unformatted grid,
locates the marker "gdzie", and builds the column map; raises ValueError
when the marker is absent (and IndexError when the grid has no row 2). -/
def getColmap (raw_values_full : DataRows) : Except Err ColMap :=
  match raw_values_full[1]? with
  | none => .error .indexError
  | some row =>
    match findKeyColAux "gdzie" 1 row with
    | none => .error .valueError
    | some k => .ok (colmapOf k)

/-- InputWorksheet._summary_col_numbers: the 11 column numbers kept for
the summary, in the order they are listed in __init__. -/
def summaryColNumbers (cm : ColMap) : List ℕ :=
  [cm.ordinal, cm.amount, cm.where_, cm.who, cm.what_category, cm.what_item,
   cm.incomings, cm.date, cm.separator, cm.percentage, cm.share]

/-- Python row[idx] for a non-negative index: IndexError when out of range. -/
def getCell (row : DataRow) (idx : ℕ) : Except Err Value :=
  match row[idx]? with
  | none => .error .indexError
  | some v => .ok v

/-- Python row[idx] = v assignment: IndexError when out of range. -/
def setCell (row : DataRow) (idx : ℕ) (v : Value) : Except Err DataRow :=
  if idx < row.length then .ok (row.set idx v) else .error .indexError

/-- Python substring containment sub in s for strings, on the character
lists of the two strings. -/
def strHasSub (s sub : String) : Bool :=
  (List.range (s.toList.length + 1)).any fun i => sub.toList.isPrefixOf (s.toList.drop i)

/-- Python sub in v: substring test when v is a string, TypeError when
v is a number. -/
def containsSub (sub : String) : Value → Except Err Bool
  | .str s => .ok (strHasSub s sub)
  | .num _ => .error .typeError

/-- Python s.startswith("R") on the string s. -/
def strStarts (s pre : String) : Bool :=
  pre.toList.isPrefixOf s.toList

/-- Python v.startswith("R"): AttributeError when v is a number. -/
def startsWithR : Value → Except Err Bool
  | .str s => .ok (strStarts s "R")
  | .num _ => .error .attributeError

/-- One cell of the date-substitution loop of _get_summary_values: the
cell at 1-based column i keeps its value unless i is the date column, in
which case the formatted-grid cell values[index][date-1] replaces it
(IndexError when that position is missing from the formatted grid). -/
def substDateCell (cm : ColMap) (values : DataRows) (index i : ℕ) (value : Value) :
    Except Err Value :=
  if i = cm.date then
    match values[index]? with
    | none => .error .indexError
    | some frow =>
      match frow[cm.date - 1]? with
      | none => .error .indexError
      | some v => .ok v
  else .ok value

/-- The inner loop of the date substitution: for i, value in
enumerate(row, start=1). -/
def substDateRow (cm : ColMap) (values : DataRows) (index : ℕ) : ℕ → DataRow → Except Err DataRow
  | _, [] => .ok []
  | i, v :: rest =>
    match substDateCell cm values index i v with
    | .error e => .error e
    | .ok v1 =>
      match substDateRow cm values index (i + 1) rest with
      | .error e => .error e
      | .ok rest1 => .ok (v1 :: rest1)

/-- The outer loop of the date substitution: for index, row in
enumerate(self._raw_values). -/
def substDates (cm : ColMap) (values : DataRows) : ℕ → DataRows → Except Err DataRows
  | _, [] => .ok []
  | index, row :: rest =>
    match substDateRow cm values index 1 row with
    | .error e => .error e
    | .ok row1 =>
      match substDates cm values (index + 1) rest with
      | .error e => .error e
      | .ok rest1 => .ok (row1 :: rest1)

/-- The admission condition of the row filter of _get_summary_values:
row[ordinal-1] and row[amount-1] and row[what_category-1] != "transfer"
and "rozliczenie" not in row[incomings-1] and row[percentage-1],
with Python left-to-right short-circuit evaluation. -/
def keepRow (cm : ColMap) (row : DataRow) : Except Err Bool :=
  match getCell row (cm.ordinal - 1) with
  | .error e => .error e
  | .ok v1 =>
    if v1.truthy then
      match getCell row (cm.amount - 1) with
      | .error e => .error e
      | .ok v2 =>
        if v2.truthy then
          match getCell row (cm.what_category - 1) with
          | .error e => .error e
          | .ok v3 =>
            if v3 = Value.str "transfer" then .ok false
            else
              match getCell row (cm.incomings - 1) with
              | .error e => .error e
              | .ok v4 =>
                match containsSub "rozliczenie" v4 with
                | .error e => .error e
                | .ok b4 =>
                  if b4 then .ok false
                  else
                    match getCell row (cm.percentage - 1) with
                    | .error e => .error e
                    | .ok v5 => .ok v5.truthy
        else .ok false
    else .ok false

/-- A Python list comprehension [row for row in rows if p(row)] where the
condition may raise: the first raised error aborts the whole pipeline. -/
def filterE (p : DataRow → Except Err Bool) : DataRows → Except Err DataRows
  | [] => .ok []
  | row :: rest =>
    match p row with
    | .error e => .error e
    | .ok b =>
      match filterE p rest with
      | .error e => .error e
      | .ok rest1 => .ok (if b then row :: rest1 else rest1)

/-- Python amount * percentage / 100 on two cell values: real
multiplication and division when both are numbers, TypeError otherwise. -/
def mulDiv100 : Value → Value → Except Err Value
  | .num a, .num p => .ok (.num (a * p / 100))
  | _, _ => .error .typeError

/-- One iteration of the share re-calculation loop of
_get_summary_values: reads amount and percentage, computes the share and
stores it at the share column, in place. -/
def calcShare (cm : ColMap) (row : DataRow) : Except Err DataRow :=
  match getCell row (cm.amount - 1) with
  | .error e => .error e
  | .ok amount =>
    match getCell row (cm.percentage - 1) with
    | .error e => .error e
    | .ok percentage =>
      match mulDiv100 amount percentage with
      | .error e => .error e
      | .ok share => setCell row (cm.share - 1) share

/-- The share re-calculation loop over all surviving rows. -/
def calcShares (cm : ColMap) : DataRows → Except Err DataRows
  | [] => .ok []
  | row :: rest =>
    match calcShare cm row with
    | .error e => .error e
    | .ok row1 =>
      match calcShares cm rest with
      | .error e => .error e
      | .ok rest1 => .ok (row1 :: rest1)

/-- The column projection of _get_summary_values:
[v for i, v in enumerate(row, start=1) if i in self.summary_col_numbers]. -/
def projectRowAux (cols : List ℕ) : ℕ → DataRow → DataRow
  | _, [] => []
  | i, v :: rest =>
    if i ∈ cols then v :: projectRowAux cols (i + 1) rest
    else projectRowAux cols (i + 1) rest

/-- The column projection started at 1-based column 1. -/
def projectRow (cols : List ℕ) (row : DataRow) : DataRow :=
  projectRowAux cols 1 row

/-- The partition condition of _get_summary_values:
row[colmap["ordinal"] - 1].startswith("R") on a projected row. -/
def isParentRow (cm : ColMap) (row : DataRow) : Except Err Bool :=
  match getCell row (cm.ordinal - 1) with
  | .error e => .error e
  | .ok v => startsWithR v

/-- The leaf-side condition: not row[colmap["ordinal"] - 1].startswith("R"). -/
def notParentRow (cm : ColMap) (row : DataRow) : Except Err Bool :=
  match isParentRow cm row with
  | .error e => .error e
  | .ok b => .ok (!b)

/-- InputWorksheet._get_summary_values: date substitution, row filter,
share re-calculation, column projection, and the parent/leaf partition;
returns (summary_values, parents_summary_values). -/
def getSummaryValues (cm : ColMap) (raw_values values : DataRows) :
    Except Err (DataRows × DataRows) :=
  match substDates cm values 0 raw_values with
  | .error e => .error e
  | .ok sv1 =>
    match filterE (keepRow cm) sv1 with
    | .error e => .error e
    | .ok sv2 =>
      match calcShares cm sv2 with
      | .error e => .error e
      | .ok sv3 =>
        match filterE (isParentRow cm) (sv3.map (projectRow (summaryColNumbers cm))) with
        | .error e => .error e
        | .ok parents =>
          match filterE (notParentRow cm) (sv3.map (projectRow (summaryColNumbers cm))) with
          | .error e => .error e
          | .ok leaves => .ok (leaves, parents)

/-- The data pipeline of InputWorksheet.__init__: both grids are read in
full, the first 4 rows (title block) are skipped for the data rows, the
column map is resolved from row 2 of the full unformatted grid, and
_get_summary_values produces the two output partitions. -/
def inputWorksheet (raw_values_full values_full : DataRows) :
    Except Err (DataRows × DataRows) :=
  match getColmap raw_values_full with
  | .error e => .error e
  | .ok cm => getSummaryValues cm (raw_values_full.drop 4) (values_full.drop 4)

/-- Truthiness of the cell at a 0-based index, false when the cell is
missing; the pure counterpart of the truthiness tests of the row filter. -/
def cellTruthy (row : DataRow) (idx : ℕ) : Bool :=
  match row[idx]? with
  | some v => v.truthy
  | none => false

/-- The pure counterpart of the category test of the row filter. -/
def categoryOk (row : DataRow) (idx : ℕ) : Bool :=
  match row[idx]? with
  | some v => decide (v ≠ Value.str "transfer")
  | none => true

/-- The pure counterpart of the incomings test of the row filter: the
cell is a string not containing "rozliczenie". -/
def incomingsOk (row : DataRow) (idx : ℕ) : Bool :=
  match row[idx]? with
  | some (.str s) => !strHasSub s "rozliczenie"
  | _ => false

/-- The pure admission predicate actually implemented by the row filter
(Python truthiness on ordinal, amount and percentage). -/
def keepPure (cm : ColMap) (row : DataRow) : Bool :=
  cellTruthy row (cm.ordinal - 1) && cellTruthy row (cm.amount - 1) &&
  categoryOk row (cm.what_category - 1) && incomingsOk row (cm.incomings - 1) &&
  cellTruthy row (cm.percentage - 1)

/-- The pure partition predicate actually implemented: the projected
ordinal cell is a string starting with "R". -/
def isParentPure (cm : ColMap) (row : DataRow) : Bool :=
  match row[cm.ordinal - 1]? with
  | some (.str s) => strStarts s "R"
  | _ => false

/-- Modelled from the spec wording of the admission filter, for
comparison with the implemented filter: a cell is "non-empty" when it
holds any value other than the empty string (so the number 0 counts as
non-empty). -/
def specNonEmpty (v : Value) : Bool :=
  decide (v ≠ Value.str "")

/-- Modelled from the spec wording of the five admission predicates:
ordinal, amount and percentage cells non-empty (rather than truthy),
category not the transfer literal, incomings without the settlement
substring. -/
def specKeep (cm : ColMap) (row : DataRow) : Bool :=
  (match row[cm.ordinal - 1]? with
   | some v => specNonEmpty v
   | none => false) &&
  (match row[cm.amount - 1]? with
   | some v => specNonEmpty v
   | none => false) &&
  categoryOk row (cm.what_category - 1) && incomingsOk row (cm.incomings - 1) &&
  (match row[cm.percentage - 1]? with
   | some v => specNonEmpty v
   | none => false)

/-! Concrete worksheet data used by the witnesses: a grid whose header
row carries the marker "gdzie" in column 6, one ordinary data row and one
parent data row (ordinal "R1"), plus the parallel formatted grid. -/

/-- Row 2 of the example grid: the marker "gdzie" in column 6. -/
def exHeader : DataRow :=
  [.str "", .str "", .str "", .str "", .str "", .str "gdzie"]

/-- An ordinary (leaf) data row of the example unformatted grid. -/
def exRow1 : DataRow :=
  [.str "1", .num 100, .str "", .str "", .str "", .str "shop", .str "bob",
   .str "groceries", .str "milk", .str "none", .num 44413, .str "", .num 50,
   .str "", .str ""]

/-- A parent data row (ordinal "R1") of the example unformatted grid. -/
def exRowR : DataRow :=
  [.str "R1", .num 100, .str "", .str "", .str "", .str "shop", .str "bob",
   .str "groceries", .str "milk", .str "none", .num 44413, .str "", .num 50,
   .str "", .str ""]

/-- The formatted-grid counterpart of exRow1: the date cell holds the
displayed date text. -/
def exFRow1 : DataRow :=
  [.str "1", .str "100", .str "", .str "", .str "", .str "shop", .str "bob",
   .str "groceries", .str "milk", .str "none", .str "2021-08-05", .str "",
   .str "50", .str "", .str ""]

/-- The formatted-grid counterpart of exRowR. -/
def exFRowR : DataRow :=
  [.str "R1", .str "100", .str "", .str "", .str "", .str "shop", .str "bob",
   .str "groceries", .str "milk", .str "none", .str "2021-08-05", .str "",
   .str "50", .str "", .str ""]

/-- The example unformatted full grid: 4 title-block rows (the second of
which is the header) and two data rows. -/
def exRvf : DataRows :=
  [[], exHeader, [], [], exRow1, exRowR]

/-- The example formatted full grid, aligned with exRvf. -/
def exVf : DataRows :=
  [[], [], [], [], exFRow1, exFRowR]

/-- exRow1 after date substitution. -/
def exSub1 : DataRow :=
  [.str "1", .num 100, .str "", .str "", .str "", .str "shop", .str "bob",
   .str "groceries", .str "milk", .str "none", .str "2021-08-05", .str "",
   .num 50, .str "", .str ""]

/-- exRowR after date substitution. -/
def exSubR : DataRow :=
  [.str "R1", .num 100, .str "", .str "", .str "", .str "shop", .str "bob",
   .str "groceries", .str "milk", .str "none", .str "2021-08-05", .str "",
   .num 50, .str "", .str ""]

/-- exSub1 after the share write: 100 * 50 / 100 = 50 stored in column 15. -/
def exShared1 : DataRow :=
  [.str "1", .num 100, .str "", .str "", .str "", .str "shop", .str "bob",
   .str "groceries", .str "milk", .str "none", .str "2021-08-05", .str "",
   .num 50, .str "", .num 50]

/-- exSubR after the share write. -/
def exSharedR : DataRow :=
  [.str "R1", .num 100, .str "", .str "", .str "", .str "shop", .str "bob",
   .str "groceries", .str "milk", .str "none", .str "2021-08-05", .str "",
   .num 50, .str "", .num 50]

/-- The projected output row obtained from exRow1. -/
def exProj1 : DataRow :=
  [.str "1", .num 100, .str "shop", .str "bob", .str "groceries", .str "milk",
   .str "none", .str "2021-08-05", .str "", .num 50, .num 50]

/-- The projected output row obtained from exRowR. -/
def exProjR : DataRow :=
  [.str "R1", .num 100, .str "shop", .str "bob", .str "groceries", .str "milk",
   .str "none", .str "2021-08-05", .str "", .num 50, .num 50]

/-- The expected leaf partition of the example run. -/
def exLeaves : DataRows := [exProj1]

/-- The expected parent partition of the example run. -/
def exParents : DataRows := [exProjR]

/-! Helper lemmas about the stages of the pipeline. -/

theorem findKey_of_first (key : String) :
    ∀ (row : DataRow) (j : ℕ), row[j]? = some (Value.str key) →
      (∀ t : ℕ, t < j → row[t]? ≠ some (Value.str key)) →
      ∀ i, findKeyColAux key i row = some (i + j) := by
  intro row
  induction row with
  | nil => intro j hj _ i; simp at hj
  | cons v rest ih =>
    intro j hj hfirst i
    cases j with
    | zero =>
      rw [List.getElem?_cons_zero] at hj
      injection hj with hv
      simp [findKeyColAux, hv]
    | succ m =>
      rw [List.getElem?_cons_succ] at hj
      have hv : ¬(v = Value.str key) := by
        intro hv
        exact hfirst 0 (Nat.succ_pos m) (by simp [List.getElem?_cons_zero, hv])
      have hrec := ih m hj (fun t ht hc => by
        have hx := hfirst (t + 1) (Nat.succ_lt_succ ht)
        rw [List.getElem?_cons_succ] at hx
        exact hx hc) (i + 1)
      rw [show i + (m + 1) = (i + 1) + m by omega]
      simpa [findKeyColAux, hv] using hrec

theorem findKey_of_absent (key : String) :
    ∀ (row : DataRow), (∀ t : ℕ, row[t]? ≠ some (Value.str key)) →
      ∀ i, findKeyColAux key i row = none := by
  intro row
  induction row with
  | nil => intro _ i; simp [findKeyColAux]
  | cons v rest ih =>
    intro h i
    have hv : ¬(v = Value.str key) := fun hv => h 0 (by simp [List.getElem?_cons_zero, hv])
    simp only [findKeyColAux, if_neg hv]
    exact ih (fun t hc => by
      have hx := h (t + 1)
      rw [List.getElem?_cons_succ] at hx
      exact hx hc) (i + 1)

theorem getCell_ok (row : DataRow) (idx : ℕ) (v : Value)
    (h : getCell row idx = .ok v) : row[idx]? = some v := by
  unfold getCell at h
  split at h
  next => exact absurd h (by simp)
  next v2 h1 =>
    injection h with h
    subst h
    exact h1

theorem getColmap_ok (rvf : DataRows) (cm : ColMap) (h : getColmap rvf = .ok cm) :
    ∃ row k, rvf[1]? = some row ∧ findKeyColAux "gdzie" 1 row = some k ∧ cm = colmapOf k := by
  unfold getColmap at h
  split at h
  next => exact absurd h (by simp)
  next row h1 =>
    split at h
    next => exact absurd h (by simp)
    next k h2 =>
      injection h with h
      exact ⟨row, k, h1, h2, h.symm⟩

theorem inputWorksheet_eq (rvf vf : DataRows) (cm : ColMap)
    (hcm : getColmap rvf = .ok cm) :
    inputWorksheet rvf vf = getSummaryValues cm (rvf.drop 4) (vf.drop 4) := by
  unfold inputWorksheet
  rw [hcm]

theorem filterE_ok (p : DataRow → Except Err Bool) :
    ∀ rows out, filterE p rows = .ok out →
      (∀ r ∈ rows, ∃ b, p r = .ok b) ∧
      out = rows.filter fun r =>
        match p r with
        | .ok b => b
        | .error _ => false := by
  intro rows
  induction rows with
  | nil =>
    intro out h
    injection h with h
    subst h
    simp
  | cons row rest ih =>
    intro out h
    unfold filterE at h
    split at h
    next e hp => exact absurd h (by simp)
    next b hp =>
      split at h
      next e hr => exact absurd h (by simp)
      next rest1 hr =>
        injection h with h
        obtain ⟨hall, hout⟩ := ih rest1 hr
        refine ⟨?_, ?_⟩
        · intro r hrm
          rcases List.mem_cons.mp hrm with hEq | hm
          · exact ⟨b, hEq ▸ hp⟩
          · exact hall r hm
        · rw [← h, hout, List.filter_cons]
          cases b with
          | true => simp [hp]
          | false => simp [hp]

theorem keepRow_ok_eq (cm : ColMap) (row : DataRow) (b : Bool)
    (h : keepRow cm row = .ok b) : b = keepPure cm row := by
  unfold keepRow at h
  split at h
  next e h1 => exact absurd h (by simp)
  next v1 h1 =>
    replace h1 := getCell_ok _ _ _ h1
    split at h
    case isTrue t1 =>
      split at h
      next e h2 => exact absurd h (by simp)
      next v2 h2 =>
        replace h2 := getCell_ok _ _ _ h2
        split at h
        case isTrue t2 =>
          split at h
          next e h3 => exact absurd h (by simp)
          next v3 h3 =>
            replace h3 := getCell_ok _ _ _ h3
            split at h
            case isTrue t3 =>
              injection h with h
              subst h
              simp [keepPure, categoryOk, h3, t3]
            case isFalse t3 =>
              split at h
              next e h4 => exact absurd h (by simp)
              next v4 h4 =>
                replace h4 := getCell_ok _ _ _ h4
                cases v4 with
                | num q => simp [containsSub] at h
                | str s =>
                  simp only [containsSub] at h
                  split at h
                  case isTrue t4 =>
                    injection h with h
                    subst h
                    simp [keepPure, incomingsOk, h4, t4]
                  case isFalse t4 =>
                    split at h
                    next e h5 => exact absurd h (by simp)
                    next v5 h5 =>
                      replace h5 := getCell_ok _ _ _ h5
                      injection h with h
                      subst h
                      simp [keepPure, cellTruthy, categoryOk, incomingsOk,
                        h1, h2, h3, h4, h5, t1, t2, t3, t4]
        case isFalse t2 =>
          injection h with h
          subst h
          simp [keepPure, cellTruthy, h2, t2]
    case isFalse t1 =>
      injection h with h
      subst h
      simp [keepPure, cellTruthy, h1, t1]

theorem isParentRow_ok (cm : ColMap) (row : DataRow) (b : Bool)
    (h : isParentRow cm row = .ok b) :
    ∃ s, row[cm.ordinal - 1]? = some (Value.str s) ∧ b = strStarts s "R" ∧
      b = isParentPure cm row := by
  unfold isParentRow at h
  split at h
  next e h1 => exact absurd h (by simp)
  next v h1 =>
    replace h1 := getCell_ok _ _ _ h1
    cases v with
    | num q => simp [startsWithR] at h
    | str s =>
      simp only [startsWithR] at h
      injection h with h
      exact ⟨s, h1, h.symm, by simp [isParentPure, h1, h.symm]⟩

theorem notParentRow_ok (cm : ColMap) (row : DataRow) (b : Bool)
    (h : notParentRow cm row = .ok b) :
    ∃ s, row[cm.ordinal - 1]? = some (Value.str s) ∧ b = !(strStarts s "R") ∧
      b = !(isParentPure cm row) := by
  unfold notParentRow at h
  split at h
  next e hp => exact absurd h (by simp)
  next c hp =>
    injection h with h
    obtain ⟨s, hs1, hs2, hs3⟩ := isParentRow_ok cm row c hp
    exact ⟨s, hs1, by rw [← h, hs2], by rw [← h, hs3]⟩

theorem calcShares_mem (cm : ColMap) :
    ∀ rows out, calcShares cm rows = .ok out →
      ∀ y ∈ out, ∃ x ∈ rows, calcShare cm x = .ok y := by
  intro rows
  induction rows with
  | nil =>
    intro out h y hy
    injection h with h
    subst h
    simp at hy
  | cons row rest ih =>
    intro out h y hy
    unfold calcShares at h
    split at h
    next e h1 => exact absurd h (by simp)
    next row1 h1 =>
      split at h
      next e h2 => exact absurd h (by simp)
      next rest1 h2 =>
        injection h with h
        subst h
        rcases List.mem_cons.mp hy with hEq | hm
        · exact ⟨row, List.mem_cons_self _ _, by rw [h1, hEq]⟩
        · obtain ⟨x, hx, hcx⟩ := ih rest1 h2 y hm
          exact ⟨x, List.mem_cons_of_mem _ hx, hcx⟩

theorem getSummaryValues_ok (cm : ColMap) (raw vals leaves parents : DataRows)
    (h : getSummaryValues cm raw vals = .ok (leaves, parents)) :
    ∃ sv1 sv2 sv3,
      substDates cm vals 0 raw = .ok sv1 ∧
      filterE (keepRow cm) sv1 = .ok sv2 ∧
      calcShares cm sv2 = .ok sv3 ∧
      filterE (isParentRow cm) (sv3.map (projectRow (summaryColNumbers cm))) = .ok parents ∧
      filterE (notParentRow cm) (sv3.map (projectRow (summaryColNumbers cm))) = .ok leaves := by
  unfold getSummaryValues at h
  split at h
  next e h1 => exact absurd h (by simp)
  next sv1 h1 =>
    split at h
    next e h2 => exact absurd h (by simp)
    next sv2 h2 =>
      split at h
      next e h3 => exact absurd h (by simp)
      next sv3 h3 =>
        split at h
        next e h4 => exact absurd h (by simp)
        next parents1 h4 =>
          split at h
          next e h5 => exact absurd h (by simp)
          next leaves1 h5 =>
            injection h with h
            have hl : leaves1 = leaves := congrArg Prod.fst h
            have hpp : parents1 = parents := congrArg Prod.snd h
            subst hl
            subst hpp
            exact ⟨sv1, sv2, sv3, h1, h2, h3, h4, h5⟩

theorem substDateRow_spec (cm : ColMap) (values : DataRows) (idx : ℕ) :
    ∀ (row : DataRow) (j : ℕ) (out : DataRow),
      substDateRow cm values idx j row = .ok out →
      out.length = row.length ∧
      ∀ t : ℕ, t < row.length →
        (j + t ≠ cm.date → out[t]? = row[t]?) ∧
        (j + t = cm.date → ∃ frow fv, values[idx]? = some frow ∧
          frow[cm.date - 1]? = some fv ∧ out[t]? = some fv) := by
  intro row
  induction row with
  | nil =>
    intro j out h
    injection h with h
    subst h
    exact ⟨rfl, fun t ht => absurd ht (by simp)⟩
  | cons v rest ih =>
    intro j out h
    unfold substDateRow at h
    split at h
    next e h1 => exact absurd h (by simp)
    next v1 h1 =>
      split at h
      next e h2 => exact absurd h (by simp)
      next rest1 h2 =>
        injection h with h
        subst h
        obtain ⟨hlen, hcells⟩ := ih (j + 1) rest1 h2
        refine ⟨by simp [hlen], ?_⟩
        intro t ht
        cases t with
        | zero =>
          refine ⟨?_, ?_⟩
          · intro hne
            unfold substDateCell at h1
            rw [if_neg (by simpa using hne)] at h1
            injection h1 with h1
            simp [h1]
          · intro heq
            unfold substDateCell at h1
            rw [if_pos (by simpa using heq)] at h1
            split at h1
            next => exact absurd h1 (by simp)
            next frow hf =>
              split at h1
              next => exact absurd h1 (by simp)
              next fv hfv =>
                injection h1 with h1
                exact ⟨frow, fv, hf, hfv, by simp [h1]⟩
        | succ m =>
          have hm : m < rest.length := by simpa using ht
          obtain ⟨hne, he⟩ := hcells m hm
          refine ⟨?_, ?_⟩
          · intro hne2
            have hx : (j + 1) + m ≠ cm.date := by omega
            simpa [List.getElem?_cons_succ] using hne hx
          · intro heq
            have hx : (j + 1) + m = cm.date := by omega
            obtain ⟨frow, fv, ha, hb, hc⟩ := he hx
            exact ⟨frow, fv, ha, hb, by simpa [List.getElem?_cons_succ] using hc⟩

theorem substDates_ok_row (cm : ColMap) (values : DataRows) :
    ∀ (rows : DataRows) (n : ℕ) (out : DataRows),
      substDates cm values n rows = .ok out →
      out.length = rows.length ∧
      ∀ (index : ℕ) (row : DataRow), rows[index]? = some row →
        ∃ orow, out[index]? = some orow ∧
          substDateRow cm values (n + index) 1 row = .ok orow := by
  intro rows
  induction rows with
  | nil =>
    intro n out h
    injection h with h
    subst h
    exact ⟨rfl, by intro index row hr; simp at hr⟩
  | cons row rest ih =>
    intro n out h
    unfold substDates at h
    split at h
    next e h1 => exact absurd h (by simp)
    next row1 h1 =>
      split at h
      next e h2 => exact absurd h (by simp)
      next rest1 h2 =>
        injection h with h
        subst h
        obtain ⟨hlen, hrows⟩ := ih (n + 1) rest1 h2
        refine ⟨by simp [hlen], ?_⟩
        intro index r hr
        cases index with
        | zero =>
          rw [List.getElem?_cons_zero] at hr
          injection hr with hr
          subst hr
          exact ⟨row1, by simp, by simpa using h1⟩
        | succ m =>
          rw [List.getElem?_cons_succ] at hr
          obtain ⟨orow, ho, hs⟩ := hrows m r hr
          refine ⟨orow, by simpa [List.getElem?_cons_succ] using ho, ?_⟩
          rw [show n + (m + 1) = (n + 1) + m by omega]
          exact hs

theorem substDateCell_error (cm : ColMap) (values : DataRows) (idx i : ℕ) (v : Value) (e : Err)
    (h : substDateCell cm values idx i v = .error e) : e = .indexError := by
  unfold substDateCell at h
  split at h
  · split at h
    next => injection h with h; exact h.symm
    next frow hf =>
      split at h
      next => injection h with h; exact h.symm
      next => exact absurd h (by simp)
  · exact absurd h (by simp)

theorem substDateRow_error (cm : ColMap) (values : DataRows) (idx : ℕ) :
    ∀ (row : DataRow) (j : ℕ) (e : Err),
      substDateRow cm values idx j row = .error e → e = .indexError := by
  intro row
  induction row with
  | nil => intro j e h; exact absurd h (by simp [substDateRow])
  | cons v rest ih =>
    intro j e h
    unfold substDateRow at h
    split at h
    next e1 h1 =>
      injection h with h
      subst h
      exact substDateCell_error cm values idx j v e1 h1
    next v1 h1 =>
      split at h
      next e1 h2 =>
        injection h with h
        subst h
        exact ih (j + 1) e1 h2
      next rest1 h2 => exact absurd h (by simp)

theorem substDates_error (cm : ColMap) (values : DataRows) :
    ∀ (rows : DataRows) (n : ℕ) (e : Err),
      substDates cm values n rows = .error e → e = .indexError := by
  intro rows
  induction rows with
  | nil => intro n e h; exact absurd h (by simp [substDates])
  | cons row rest ih =>
    intro n e h
    unfold substDates at h
    split at h
    next e1 h1 =>
      injection h with h
      subst h
      exact substDateRow_error cm values n row 1 e1 h1
    next row1 h1 =>
      split at h
      next e1 h2 =>
        injection h with h
        subst h
        exact ih (n + 1) e1 h2
      next rest1 h2 => exact absurd h (by simp)

theorem filterMap_shift (i : ℕ) (v : Value) (rest : DataRow) :
    ∀ (cols : List ℕ), cols.Pairwise (· < ·) →
      (cols.filterMap fun c => if i ≤ c then (v :: rest)[c - i]? else none)
        = (if i ∈ cols
            then v :: (cols.filterMap fun c => if i + 1 ≤ c then rest[c - (i + 1)]? else none)
            else cols.filterMap fun c => if i + 1 ≤ c then rest[c - (i + 1)]? else none) := by
  intro cols
  induction cols with
  | nil => intro _; simp
  | cons c cs ih =>
    intro hp
    rw [List.pairwise_cons] at hp
    obtain ⟨hlt, hps⟩ := hp
    rcases Nat.lt_trichotomy c i with hci | hci | hci
    · have h1 : ¬(i ≤ c) := by omega
      have h2 : ¬(i + 1 ≤ c) := by omega
      have h3 : ¬(i = c) := by omega
      rw [List.filterMap_cons, List.filterMap_cons]
      simp only [if_neg h1, if_neg h2]
      rw [ih hps]
      by_cases hm : i ∈ cs
      · simp [List.mem_cons, hm, h3]
      · simp [List.mem_cons, hm, h3]
    · subst hci
      have hmem : c ∈ c :: cs := List.mem_cons_self c cs
      have hnotcs : c ∉ cs := fun hcs => absurd (hlt c hcs) (lt_irrefl c)
      rw [List.filterMap_cons, List.filterMap_cons]
      have hhead : (if c ≤ c then (v :: rest)[c - c]? else none) = some v := by simp
      have hhead2 : (if c + 1 ≤ c then rest[c - (c + 1)]? else none) = none := by
        rw [if_neg (by omega)]
      rw [hhead, hhead2, if_pos hmem]
      have htail : (cs.filterMap fun x => if c ≤ x then (v :: rest)[x - c]? else none)
          = cs.filterMap fun x => if c + 1 ≤ x then rest[x - (c + 1)]? else none := by
        apply List.filterMap_congr
        intro x hx
        have hcx : c < x := hlt x hx
        rw [if_pos (by omega), if_pos (by omega)]
        rw [show x - c = (x - (c + 1)) + 1 by omega]
        exact List.getElem?_cons_succ
      rw [htail]
    · have h1 : i ≤ c := by omega
      have h2 : i + 1 ≤ c := by omega
      have hnot : i ∉ c :: cs := by
        intro hmem
        rcases List.mem_cons.mp hmem with hEq | hcs
        · omega
        · exact absurd (hlt i hcs) (by omega)
      rw [List.filterMap_cons, List.filterMap_cons, if_pos h1, if_pos h2, if_neg hnot]
      have hhead : (v :: rest)[c - i]? = rest[c - (i + 1)]? := by
        rw [show c - i = (c - (i + 1)) + 1 by omega]
        exact List.getElem?_cons_succ
      rw [hhead]
      have htail : (cs.filterMap fun x => if i ≤ x then (v :: rest)[x - i]? else none)
          = cs.filterMap fun x => if i + 1 ≤ x then rest[x - (i + 1)]? else none := by
        apply List.filterMap_congr
        intro x hx
        have hcx : c < x := hlt x hx
        rw [if_pos (by omega), if_pos (by omega)]
        rw [show x - i = (x - (i + 1)) + 1 by omega]
        exact List.getElem?_cons_succ
      rw [htail]

theorem projectRowAux_sorted (cols : List ℕ) (hs : cols.Pairwise (· < ·)) :
    ∀ (row : DataRow) (i : ℕ),
      projectRowAux cols i row = cols.filterMap fun c => if i ≤ c then row[c - i]? else none := by
  intro row
  induction row with
  | nil =>
    intro i
    simp only [projectRowAux]
    symm
    rw [List.filterMap_eq_nil_iff]
    intro c _
    split
    · exact List.getElem?_nil
    · rfl
  | cons v rest ih =>
    intro i
    rw [filterMap_shift i v rest cols hs]
    simp only [projectRowAux, ih (i + 1)]

theorem summaryColNumbers_sorted (k : ℕ) (hk : 3 ≤ k) :
    (summaryColNumbers (colmapOf k)).Pairwise (· < ·) := by
  simp only [summaryColNumbers, colmapOf]
  simp [List.pairwise_cons, List.forall_mem_cons]
  omega

theorem categoryOk_eq_true_iff (row : DataRow) (idx : ℕ) :
    categoryOk row idx = true ↔ row[idx]? ≠ some (Value.str "transfer") := by
  unfold categoryOk
  cases hv : row[idx]? with
  | none => simp
  | some v => simp

theorem incomingsOk_eq_true_iff (row : DataRow) (idx : ℕ) :
    incomingsOk row idx = true ↔
      ∃ s, row[idx]? = some (Value.str s) ∧ strHasSub s "rozliczenie" = false := by
  unfold incomingsOk
  cases hv : row[idx]? with
  | none => simp
  | some v =>
    cases v with
    | str s => simp
    | num q => simp

/-- C2: when row 2 of the grid holds the marker "gdzie", with k the 1-based
index of its first cell equal to the marker, the resolver produces a
ColumnMap with ordinal=1, amount=2, balance=3, bank_tag=4, bank_accounts
equal to exactly the integer range [5, k), the anchored field "where" at k,
and the remaining fields at k plus the fixed offsets (who=k+1,
what_category=k+2, what_item=k+3, incomings=k+4, date=k+5, separator=k+6,
percentage=k+7, share=k+9). -/
theorem c2_colmap_resolution (rvf : DataRows) (row : DataRow) (k : ℕ)
    (hrow : rvf[1]? = some row)
    (hk1 : 1 ≤ k)
    (hkcell : row[k - 1]? = some (Value.str "gdzie"))
    (hfirst : ∀ j : ℕ, j + 1 < k → row[j]? ≠ some (Value.str "gdzie")) :
    getColmap rvf = .ok
      { ordinal := 1, amount := 2, balance := 3, bank_tag := 4,
        bank_accounts := List.range' 5 (k - 5), where_ := k, who := k + 1,
        what_category := k + 2, what_item := k + 3, incomings := k + 4,
        date := k + 5, separator := k + 6, percentage := k + 7, share := k + 9 } ∧
    ∀ j : ℕ, (j ∈ List.range' 5 (k - 5) ↔ 5 ≤ j ∧ j < k) := by
  have hfind : findKeyColAux "gdzie" 1 row = some k := by
    have hx := findKey_of_first "gdzie" row (k - 1) hkcell
      (fun t ht => hfirst t (by omega)) 1
    rwa [show 1 + (k - 1) = k by omega] at hx
  refine ⟨?_, ?_⟩
  · simp only [getColmap, hrow, hfind]
    rfl
  · intro j
    rw [List.mem_range'_1]
    omega

/-- Witness for C2: the example grid has the marker in column 6, and the
resolver produces the corresponding map with bank_accounts = [5]. -/
theorem c2_colmap_resolution_witness :
    (exRvf[1]? = some exHeader) ∧ (1 ≤ 6) ∧
    (exHeader[5]? = some (Value.str "gdzie")) ∧
    (∀ j : ℕ, j + 1 < 6 → exHeader[j]? ≠ some (Value.str "gdzie")) ∧
    (getColmap exRvf = .ok
      { ordinal := 1, amount := 2, balance := 3, bank_tag := 4,
        bank_accounts := List.range' 5 1, where_ := 6, who := 7,
        what_category := 8, what_item := 9, incomings := 10,
        date := 11, separator := 12, percentage := 13, share := 15 } ∧
     ∀ j : ℕ, (j ∈ List.range' 5 1 ↔ 5 ≤ j ∧ j < 6)) := by
  refine ⟨by decide, by decide, by decide, ?_, ?_⟩
  · intro j hj
    have hj5 : j < 5 := by omega
    interval_cases j <;> decide
  · exact c2_colmap_resolution exRvf exHeader 6 (by decide) (by decide) (by decide)
      (fun j hj => by
        have hj5 : j < 5 := by omega
        interval_cases j <;> decide)

/-- C7: when row 2 of the grid has no cell equal to the marker "gdzie",
the resolver raises the ValueError and produces no ColumnMap, and the
whole worksheet pipeline fails with that error, producing no partitions. -/
theorem c7_missing_marker (rvf : DataRows) (row : DataRow)
    (hrow : rvf[1]? = some row)
    (habs : ∀ t : ℕ, row[t]? ≠ some (Value.str "gdzie")) :
    getColmap rvf = .error Err.valueError ∧
    ∀ vf : DataRows, inputWorksheet rvf vf = .error Err.valueError := by
  have hfind : findKeyColAux "gdzie" 1 row = none := findKey_of_absent "gdzie" row habs 1
  have hcm : getColmap rvf = .error Err.valueError := by
    simp only [getColmap, hrow, hfind]
  refine ⟨hcm, ?_⟩
  intro vf
  unfold inputWorksheet
  rw [hcm]

/-- Grid used by the witness of C7: its second row has no marker cell. -/
def noKeyHeader : DataRow := [.str "a", .num 3]

/-- The full grid around noKeyHeader. -/
def noKeyRvf : DataRows := [[], noKeyHeader, [], []]

/-- Witness for C7: the marker-free grid makes the resolver and the whole
pipeline fail with the ValueError. -/
theorem c7_missing_marker_witness :
    (noKeyRvf[1]? = some noKeyHeader) ∧
    (∀ t : ℕ, noKeyHeader[t]? ≠ some (Value.str "gdzie")) ∧
    (getColmap noKeyRvf = .error Err.valueError ∧
     ∀ vf : DataRows, inputWorksheet noKeyRvf vf = .error Err.valueError) := by
  have habs : ∀ t : ℕ, noKeyHeader[t]? ≠ some (Value.str "gdzie") := by
    intro t
    match t with
    | 0 => decide
    | 1 => decide
    | (n + 2) => simp [noKeyHeader]
  exact ⟨by decide, habs, c7_missing_marker noKeyRvf noKeyHeader (by decide) habs⟩

/-- C6: for any anchor k at which the 11 summary columns are pairwise
distinct (3 ≤ k), the summary column list is
[ordinal, amount, where, who, what_category, what_item, incomings, date,
separator, percentage, share] = [1, 2, k, .., k+7, k+9], and the projection
of a row keeps exactly the cells whose 1-based column index appears in
that list, in the order the list specifies. -/
theorem c6_projection (k : ℕ) (hk : 3 ≤ k) (row : DataRow) :
    summaryColNumbers (colmapOf k)
      = [1, 2, k, k + 1, k + 2, k + 3, k + 4, k + 5, k + 6, k + 7, k + 9] ∧
    projectRow (summaryColNumbers (colmapOf k)) row
      = (summaryColNumbers (colmapOf k)).filterMap fun c => row[c - 1]? := by
  refine ⟨rfl, ?_⟩
  unfold projectRow
  rw [projectRowAux_sorted _ (summaryColNumbers_sorted k hk) row 1]
  apply List.filterMap_congr
  intro c hc
  have h1 : 1 ≤ c := by
    simp [summaryColNumbers, colmapOf, List.mem_cons] at hc
    omega
  rw [if_pos h1]

/-- Witness for C6 at k = 6 on a concrete shared row. -/
theorem c6_projection_witness :
    (3 ≤ 6) ∧
    (summaryColNumbers (colmapOf 6)
        = [1, 2, 6, 7, 8, 9, 10, 11, 12, 13, 15] ∧
     projectRow (summaryColNumbers (colmapOf 6)) exShared1
        = (summaryColNumbers (colmapOf 6)).filterMap fun c => exShared1[c - 1]?) :=
  ⟨by decide, c6_projection 6 (by decide) exShared1⟩

/-- C4: for an admitted row whose amount and percentage cells are numbers,
the share re-calculation writes amount * percentage / 100 into the row at
the share column, overwriting whatever value was there. -/
theorem c4_share (cm : ColMap) (row out : DataRow) (a p : ℚ)
    (ha : row[cm.amount - 1]? = some (Value.num a))
    (hp : row[cm.percentage - 1]? = some (Value.num p))
    (h : calcShare cm row = .ok out) :
    cm.share - 1 < row.length ∧
    out = row.set (cm.share - 1) (Value.num (a * p / 100)) ∧
    out[cm.share - 1]? = some (Value.num (a * p / 100)) := by
  unfold calcShare at h
  split at h
  next e h1 => exact absurd h (by simp)
  next va h1 =>
    replace h1 := getCell_ok _ _ _ h1
    rw [ha] at h1
    injection h1 with h1
    subst h1
    split at h
    next e h2 => exact absurd h (by simp)
    next vp h2 =>
      replace h2 := getCell_ok _ _ _ h2
      rw [hp] at h2
      injection h2 with h2
      subst h2
      simp only [mulDiv100] at h
      unfold setCell at h
      split at h
      next hlt =>
        injection h with h
        exact ⟨hlt, h.symm, by rw [← h]; exact List.getElem?_set_self hlt⟩
      next => exact absurd h (by simp)

/-- Witness for C4: on the substituted example row, 100 * 50 / 100 = 50 is
written into cell 15 (index 14). -/
theorem c4_share_witness :
    (exSub1[1]? = some (Value.num 100)) ∧
    (exSub1[12]? = some (Value.num 50)) ∧
    (calcShare (colmapOf 6) exSub1 = .ok exShared1) ∧
    (14 < exSub1.length ∧
     exShared1 = exSub1.set 14 (Value.num (100 * 50 / 100)) ∧
     exShared1[14]? = some (Value.num (100 * 50 / 100))) := by
  refine ⟨by decide, by decide, by with_unfolding_all decide, ?_⟩
  exact c4_share (colmapOf 6) exSub1 exShared1 100 50 (by decide) (by decide)
    (by with_unfolding_all decide)

/-- C5: for every data row, the date-substitution stage produces a row of
the same length whose non-date cells equal the unformatted cells, and
whenever the row reaches the date column, its date cell equals the
formatted-grid cell at the same row index and date column. -/
theorem c5_date_field (cm : ColMap) (values rows out : DataRows)
    (hd : 1 ≤ cm.date)
    (h : substDates cm values 0 rows = .ok out) :
    out.length = rows.length ∧
    ∀ (index : ℕ) (row orow : DataRow), rows[index]? = some row → out[index]? = some orow →
      orow.length = row.length ∧
      (∀ t : ℕ, t < row.length → t + 1 ≠ cm.date → orow[t]? = row[t]?) ∧
      (cm.date ≤ row.length →
        ∃ frow fv, values[index]? = some frow ∧ frow[cm.date - 1]? = some fv ∧
          orow[cm.date - 1]? = some fv) := by
  obtain ⟨hlen, hrows⟩ := substDates_ok_row cm values rows 0 out h
  refine ⟨hlen, ?_⟩
  intro index row orow hr ho
  obtain ⟨orow2, ho2, hsub⟩ := hrows index row hr
  rw [ho] at ho2
  injection ho2 with ho2
  subst ho2
  rw [Nat.zero_add] at hsub
  obtain ⟨holen, hcells⟩ := substDateRow_spec cm values index row 1 orow hsub
  refine ⟨holen, ?_, ?_⟩
  · intro t ht hne
    exact (hcells t ht).1 (by omega)
  · intro hdlen
    have ht : cm.date - 1 < row.length := by omega
    exact (hcells (cm.date - 1) ht).2 (by omega)

/-- Witness for C5 on the example grids: both data rows get the formatted
date "2021-08-05" and keep every other cell. -/
theorem c5_date_field_witness :
    (1 ≤ (colmapOf 6).date) ∧
    (substDates (colmapOf 6) (exVf.drop 4) 0 (exRvf.drop 4) = .ok [exSub1, exSubR]) ∧
    ([exSub1, exSubR].length = (exRvf.drop 4).length ∧
     ∀ (index : ℕ) (row orow : DataRow),
       (exRvf.drop 4)[index]? = some row → [exSub1, exSubR][index]? = some orow →
       orow.length = row.length ∧
       (∀ t : ℕ, t < row.length → t + 1 ≠ (colmapOf 6).date → orow[t]? = row[t]?) ∧
       ((colmapOf 6).date ≤ row.length →
         ∃ frow fv, (exVf.drop 4)[index]? = some frow ∧
           frow[(colmapOf 6).date - 1]? = some fv ∧
           orow[(colmapOf 6).date - 1]? = some fv)) :=
  ⟨by decide, by decide,
    c5_date_field (colmapOf 6) (exVf.drop 4) (exRvf.drop 4) [exSub1, exSubR]
      (by decide) (by decide)⟩

/-- C9: the "non-empty" checks of the admission filter are Python
truthiness tests, so a row whose amount or percentage cell holds the
number 0, or whose ordinal cell holds any falsy value, is dropped even
though the number 0 is not an empty cell. -/
theorem c9_truthiness_drop (cm : ColMap) (row : DataRow) (b : Bool)
    (h : keepRow cm row = .ok b)
    (hzero : row[cm.amount - 1]? = some (Value.num 0) ∨
             row[cm.percentage - 1]? = some (Value.num 0) ∨
             (∃ v, row[cm.ordinal - 1]? = some v ∧ v.truthy = false)) :
    b = false ∧ specNonEmpty (Value.num 0) = true := by
  refine ⟨?_, by decide⟩
  rw [keepRow_ok_eq cm row b h]
  rcases hzero with hz | hz | ⟨v, hv, hvt⟩
  · simp [keepPure, cellTruthy, hz, Value.truthy]
  · simp [keepPure, cellTruthy, hz, Value.truthy]
  · simp [keepPure, cellTruthy, hv, hvt]

/-- Row used by the witness of C9: amount is the number 0, every other
admission cell would pass. -/
def c9Row : DataRow :=
  [.str "1", .num 0, .str "", .str "", .str "", .str "shop", .str "bob",
   .str "groceries", .str "milk", .str "none", .str "2021-08-05", .str "",
   .num 50, .str "", .str ""]

/-- Witness for C9: the zero-amount row is evaluated to False by the
filter condition. -/
theorem c9_truthiness_drop_witness :
    (keepRow (colmapOf 6) c9Row = .ok false) ∧
    (c9Row[1]? = some (Value.num 0) ∨
     c9Row[12]? = some (Value.num 0) ∨
     (∃ v, c9Row[0]? = some v ∧ v.truthy = false)) ∧
    (false = false ∧ specNonEmpty (Value.num 0) = true) := by
  refine ⟨by decide, Or.inl (by decide), ?_⟩
  exact c9_truthiness_drop (colmapOf 6) c9Row false (by decide) (Or.inl (by decide))

/-- Row used by the witness of C10: the incomings cell holds a number, so
the substring test of the filter raises a TypeError. -/
def c10Row : DataRow :=
  [.str "1", .num 100, .str "", .str "", .str "", .str "shop", .str "bob",
   .str "groceries", .str "milk", .num 7, .num 44413, .str "", .num 50,
   .str "", .str ""]

/-- C10: the pipeline needs string-typed cells at two points: the
incomings substring test raises a TypeError on a numeric cell once the
first three predicates pass, the partition prefix test raises an
AttributeError on a numeric ordinal cell, and a raised error in a filter
stage means no output list is produced by that stage. -/
theorem c10_string_requirements :
    (∀ (cm : ColMap) (row : DataRow) (q : ℚ) (v1 v2 v3 : Value),
      row[cm.ordinal - 1]? = some v1 → v1.truthy = true →
      row[cm.amount - 1]? = some v2 → v2.truthy = true →
      row[cm.what_category - 1]? = some v3 → v3 ≠ Value.str "transfer" →
      row[cm.incomings - 1]? = some (Value.num q) →
      keepRow cm row = .error Err.typeError) ∧
    (∀ (cm : ColMap) (row : DataRow) (q : ℚ),
      row[cm.ordinal - 1]? = some (Value.num q) →
      isParentRow cm row = .error Err.attributeError) ∧
    (∀ (p : DataRow → Except Err Bool) (rows : DataRows) (r : DataRow) (e : Err),
      r ∈ rows → p r = .error e → ∀ out, filterE p rows ≠ .ok out) := by
  refine ⟨?_, ?_, ?_⟩
  · intro cm row q v1 v2 v3 h1 t1 h2 t2 h3 t3 h4
    simp [keepRow, getCell, containsSub, h1, h2, h3, h4, t1, t2, t3]
  · intro cm row q h1
    simp [isParentRow, getCell, h1, startsWithR]
  · intro p rows r e hr hp out hok
    obtain ⟨hall, _⟩ := filterE_ok p rows out hok
    obtain ⟨b, hb⟩ := hall r hr
    rw [hp] at hb
    exact absurd hb (by simp)

/-- Witness for C10: the numeric-incomings row makes the filter condition
raise a TypeError, a numeric ordinal makes the partition test raise an
AttributeError, and the surrounding filter stage yields no output list. -/
theorem c10_string_requirements_witness :
    (keepRow (colmapOf 6) c10Row = .error Err.typeError) ∧
    (isParentRow (colmapOf 6) [Value.num 3] = .error Err.attributeError) ∧
    (∀ out, filterE (keepRow (colmapOf 6)) [c10Row] ≠ .ok out) := by
  obtain ⟨hA, hB, hC⟩ := c10_string_requirements
  refine ⟨?_, ?_, ?_⟩
  · exact hA (colmapOf 6) c10Row 7 (Value.str "1") (Value.num 100) (Value.str "groceries")
      (by decide) (by decide) (by decide) (by decide) (by decide) (by decide) (by decide)
  · exact hB (colmapOf 6) [Value.num 3] 3 (by decide)
  · exact hC (keepRow (colmapOf 6)) [c10Row] c10Row Err.typeError (by decide) (by decide)

/-- C3: the two partition passes over the projected rows are both computed
from the full projected list: the parent list keeps exactly the rows whose
ordinal text starts with "R" and the leaf list exactly the others, both as
order-preserving sublists; every projected row lands in exactly one of the
two partitions. -/
theorem c3_partition (cm : ColMap) (pv parents leaves : DataRows)
    (hp : filterE (isParentRow cm) pv = .ok parents)
    (hl : filterE (notParentRow cm) pv = .ok leaves) :
    parents = pv.filter (fun r => isParentPure cm r) ∧
    leaves = pv.filter (fun r => !(isParentPure cm r)) ∧
    parents.Sublist pv ∧ leaves.Sublist pv ∧
    (∀ r ∈ pv, ∃ s, r[cm.ordinal - 1]? = some (Value.str s) ∧
      (r ∈ parents ↔ strStarts s "R" = true) ∧
      (r ∈ leaves ↔ strStarts s "R" = false)) ∧
    (∀ r ∈ pv, r ∈ parents ∨ r ∈ leaves) ∧
    (∀ r, ¬(r ∈ parents ∧ r ∈ leaves)) := by
  obtain ⟨hallp, hpout⟩ := filterE_ok _ pv parents hp
  obtain ⟨halll, hlout⟩ := filterE_ok _ pv leaves hl
  have hpe : parents = pv.filter fun r => isParentPure cm r := by
    rw [hpout]
    apply List.filter_congr
    intro r hr
    obtain ⟨b, hb⟩ := hallp r hr
    obtain ⟨s, hs, hbs, hbp⟩ := isParentRow_ok cm r b hb
    rw [hb]
    simpa using hbp
  have hle : leaves = pv.filter fun r => !(isParentPure cm r) := by
    rw [hlout]
    apply List.filter_congr
    intro r hr
    obtain ⟨b, hb⟩ := halll r hr
    obtain ⟨s, hs, hbs, hbp⟩ := notParentRow_ok cm r b hb
    rw [hb]
    simpa using hbp
  refine ⟨hpe, hle, hpe ▸ List.filter_sublist pv, hle ▸ List.filter_sublist pv, ?_, ?_, ?_⟩
  · intro r hr
    obtain ⟨b, hb⟩ := hallp r hr
    obtain ⟨s, hs, hbs, hbp⟩ := isParentRow_ok cm r b hb
    have hip : isParentPure cm r = strStarts s "R" := by
      simp [isParentPure, hs]
    refine ⟨s, hs, ?_, ?_⟩
    · rw [hpe, List.mem_filter]
      constructor
      · rintro ⟨_, h2⟩
        rw [← hip]
        exact h2
      · intro h2
        exact ⟨hr, by rw [hip]; exact h2⟩
    · rw [hle, List.mem_filter]
      constructor
      · rintro ⟨_, h2⟩
        rw [← hip]
        simpa using h2
      · intro h2
        exact ⟨hr, by simp [hip, h2]⟩
  · intro r hr
    by_cases hb2 : isParentPure cm r
    · left
      rw [hpe]
      exact List.mem_filter.mpr ⟨hr, by simpa using hb2⟩
    · right
      rw [hle]
      exact List.mem_filter.mpr ⟨hr, by simpa using hb2⟩
  · rintro r ⟨hrp, hrl⟩
    rw [hpe] at hrp
    rw [hle] at hrl
    have h1 := (List.mem_filter.mp hrp).2
    have h2 := (List.mem_filter.mp hrl).2
    simp [h1] at h2

/-- Witness for C3 on the two projected example rows: the "R1" row goes to
the parent partition, the "1" row to the leaf partition. -/
theorem c3_partition_witness :
    (filterE (isParentRow (colmapOf 6)) [exProj1, exProjR] = .ok [exProjR]) ∧
    (filterE (notParentRow (colmapOf 6)) [exProj1, exProjR] = .ok [exProj1]) ∧
    ([exProjR] = [exProj1, exProjR].filter (fun r => isParentPure (colmapOf 6) r) ∧
     [exProj1] = [exProj1, exProjR].filter (fun r => !(isParentPure (colmapOf 6) r)) ∧
     List.Sublist [exProjR] [exProj1, exProjR] ∧
     List.Sublist [exProj1] [exProj1, exProjR] ∧
     (∀ r ∈ [exProj1, exProjR], ∃ s, r[(colmapOf 6).ordinal - 1]? = some (Value.str s) ∧
       (r ∈ [exProjR] ↔ strStarts s "R" = true) ∧
       (r ∈ [exProj1] ↔ strStarts s "R" = false)) ∧
     (∀ r ∈ [exProj1, exProjR], r ∈ [exProjR] ∨ r ∈ [exProj1]) ∧
     (∀ r, ¬(r ∈ [exProjR] ∧ r ∈ [exProj1]))) :=
  ⟨by decide, by decide,
    c3_partition (colmapOf 6) [exProj1, exProjR] [exProjR] [exProj1]
      (by decide) (by decide)⟩

/-- Data row used by the counterexample to C1: the amount cell holds the
number 0, every other admission cell passes; all five spec predicates in
their literal "non-empty" reading hold on this row. -/
def c1cRow : DataRow :=
  [.str "1", .num 0, .str "", .str "", .str "", .str "shop", .str "bob",
   .str "groceries", .str "milk", .str "none", .num 44413, .str "", .num 50,
   .str "", .str ""]

/-- The unformatted grid around c1cRow. -/
def c1cRvf : DataRows := [[], exHeader, [], [], c1cRow]

/-- The formatted grid aligned with c1cRvf. -/
def c1cVf : DataRows := [[], [], [], [], exFRow1]

/-- Counterexample to C1 as stated: on the zero-amount row all five
admission predicates hold in the literal "non-empty" reading of the spec,
yet the pipeline drops the row - both output partitions are empty, so the
"kept if and only if" direction from the predicates to admission fails. -/
theorem c1_admission_counterexample :
    specKeep (colmapOf 6) c1cRow = true ∧
    getColmap c1cRvf = .ok (colmapOf 6) ∧
    inputWorksheet c1cRvf c1cVf = .ok ([], []) := by
  refine ⟨by decide, by decide, by decide⟩

/-- C1 amended: admission is by Python truthiness, not literal
non-emptiness: a row evaluated by the filter without error is kept iff its
ordinal cell is truthy, its amount cell is truthy, its category cell is
not exactly "transfer", its incomings cell is a string not containing
"rozliczenie", and its percentage cell is truthy; and every row of either
output partition of a successful run derives from a substituted data row
satisfying that truthiness predicate, so a row failing it contributes to
neither partition. -/
theorem c1_admission_truthiness (rvf vf leaves parents : DataRows) (cm : ColMap)
    (hcm : getColmap rvf = .ok cm)
    (hrun : inputWorksheet rvf vf = .ok (leaves, parents)) :
    (∀ (row : DataRow) (b : Bool), keepRow cm row = .ok b →
      (b = true ↔
        (cellTruthy row (cm.ordinal - 1) = true ∧
         cellTruthy row (cm.amount - 1) = true ∧
         row[cm.what_category - 1]? ≠ some (Value.str "transfer") ∧
         (∃ s, row[cm.incomings - 1]? = some (Value.str s) ∧
            strHasSub s "rozliczenie" = false) ∧
         cellTruthy row (cm.percentage - 1) = true))) ∧
    (∃ subst, substDates cm (vf.drop 4) 0 (rvf.drop 4) = .ok subst ∧
      ∀ out : DataRow, (out ∈ leaves ∨ out ∈ parents) →
        ∃ row row1, row ∈ subst ∧ keepPure cm row = true ∧
          calcShare cm row = .ok row1 ∧
          out = projectRow (summaryColNumbers cm) row1) := by
  refine ⟨?_, ?_⟩
  · intro row b hb
    rw [keepRow_ok_eq cm row b hb]
    simp only [keepPure, Bool.and_eq_true, categoryOk_eq_true_iff, incomingsOk_eq_true_iff]
    tauto
  · have hsum : getSummaryValues cm (rvf.drop 4) (vf.drop 4) = .ok (leaves, parents) := by
      rw [← inputWorksheet_eq rvf vf cm hcm]
      exact hrun
    obtain ⟨sv1, sv2, sv3, h1, h2, h3, h4, h5⟩ :=
      getSummaryValues_ok cm (rvf.drop 4) (vf.drop 4) leaves parents hsum
    refine ⟨sv1, h1, ?_⟩
    intro out hout
    have hpv : out ∈ sv3.map (projectRow (summaryColNumbers cm)) := by
      rcases hout with ho | ho
      · obtain ⟨_, hlout⟩ := filterE_ok _ _ _ h5
        rw [hlout] at ho
        exact List.mem_of_mem_filter ho
      · obtain ⟨_, hpout⟩ := filterE_ok _ _ _ h4
        rw [hpout] at ho
        exact List.mem_of_mem_filter ho
    obtain ⟨row1, hrow1, hproj⟩ := List.mem_map.mp hpv
    obtain ⟨row, hrowmem, hcs⟩ := calcShares_mem cm sv2 sv3 h3 row1 hrow1
    obtain ⟨hall2, h2out⟩ := filterE_ok _ _ _ h2
    rw [h2out] at hrowmem
    have hrow_in : row ∈ sv1 := List.mem_of_mem_filter hrowmem
    have hpred := (List.mem_filter.mp hrowmem).2
    obtain ⟨b, hbr⟩ := hall2 row hrow_in
    rw [hbr] at hpred
    simp only [] at hpred
    refine ⟨row, row1, hrow_in, ?_, hcs, hproj.symm⟩
    rw [← keepRow_ok_eq cm row b hbr]
    exact hpred

/-- Witness for the amended C1 on the example run: the two projected rows
of the output derive from admitted (truthy) substituted rows. -/
theorem c1_admission_truthiness_witness :
    (getColmap exRvf = .ok (colmapOf 6)) ∧
    (inputWorksheet exRvf exVf = .ok (exLeaves, exParents)) ∧
    ((∀ (row : DataRow) (b : Bool), keepRow (colmapOf 6) row = .ok b →
      (b = true ↔
        (cellTruthy row 0 = true ∧ cellTruthy row 1 = true ∧
         row[7]? ≠ some (Value.str "transfer") ∧
         (∃ s, row[9]? = some (Value.str s) ∧ strHasSub s "rozliczenie" = false) ∧
         cellTruthy row 12 = true))) ∧
     (∃ subst, substDates (colmapOf 6) (exVf.drop 4) 0 (exRvf.drop 4) = .ok subst ∧
       ∀ out : DataRow, (out ∈ exLeaves ∨ out ∈ exParents) →
         ∃ row row1, row ∈ subst ∧ keepPure (colmapOf 6) row = true ∧
           calcShare (colmapOf 6) row = .ok row1 ∧
           out = projectRow (summaryColNumbers (colmapOf 6)) row1)) := by
  refine ⟨by decide, by with_unfolding_all decide, ?_⟩
  exact c1_admission_truthiness exRvf exVf exLeaves exParents (colmapOf 6) (by decide)
    (by with_unfolding_all decide)

/-- Formatted grid used by the counterexample to C8: one extra row beyond
the unformatted grid, so the two grids disagree in row extents. -/
def c8Vf : DataRows := [[], [], [], [], exFRow1, exFRowR, []]

/-- Counterexample to C8 as stated: the unformatted grid has 6 rows and
the formatted grid 7, yet the pipeline succeeds and produces both
partitions, so a row/column extent disagreement is not always fatal. -/
theorem c8_mismatch_counterexample :
    exRvf.length = 6 ∧ c8Vf.length = 7 ∧
    inputWorksheet exRvf c8Vf = .ok (exLeaves, exParents) := by
  refine ⟨rfl, rfl, by with_unfolding_all decide⟩

/-- C8 amended: the pipeline fails fatally on the mismatches the
date substitution actually touches: when some unformatted data row reaches
the date column but the formatted grid lacks the corresponding cell, the
run aborts with an IndexError and produces no partitions. -/
theorem c8_mismatch_fatal (rvf vf : DataRows) (cm : ColMap) (index : ℕ) (row : DataRow)
    (hcm : getColmap rvf = .ok cm)
    (hrow : (rvf.drop 4)[index]? = some row)
    (hlen : cm.date ≤ row.length)
    (hmiss : ∀ frow : DataRow, (vf.drop 4)[index]? = some frow → frow.length < cm.date) :
    inputWorksheet rvf vf = .error Err.indexError := by
  have hd1 : 1 ≤ cm.date := by
    obtain ⟨row2, k, _, _, hcmk⟩ := getColmap_ok rvf cm hcm
    subst hcmk
    simp [colmapOf]
  rw [inputWorksheet_eq rvf vf cm hcm]
  cases hsd : substDates cm (vf.drop 4) 0 (rvf.drop 4) with
  | error e =>
    have he := substDates_error cm (vf.drop 4) (rvf.drop 4) 0 e hsd
    subst he
    unfold getSummaryValues
    rw [hsd]
  | ok sv1 =>
    exfalso
    obtain ⟨_, hrows⟩ := substDates_ok_row cm (vf.drop 4) (rvf.drop 4) 0 sv1 hsd
    obtain ⟨orow, _, hsub⟩ := hrows index row hrow
    rw [Nat.zero_add] at hsub
    obtain ⟨_, hcells⟩ := substDateRow_spec cm (vf.drop 4) index row 1 orow hsub
    have ht : cm.date - 1 < row.length := by omega
    obtain ⟨frow, fv, hf, hfv, _⟩ := (hcells (cm.date - 1) ht).2 (by omega)
    have hflen := hmiss frow hf
    have hlt : cm.date - 1 < frow.length := by
      rcases List.getElem?_eq_some_iff.mp hfv with ⟨hlt2, _⟩
      exact hlt2
    omega

/-- Witness for the amended C8: deleting the formatted data rows entirely
makes the run abort with the IndexError. -/
theorem c8_mismatch_fatal_witness :
    (getColmap exRvf = .ok (colmapOf 6)) ∧
    ((exRvf.drop 4)[0]? = some exRow1) ∧
    ((colmapOf 6).date ≤ exRow1.length) ∧
    (∀ frow : DataRow, (([[], [], [], []] : DataRows).drop 4)[0]? = some frow →
      frow.length < (colmapOf 6).date) ∧
    inputWorksheet exRvf [[], [], [], []] = .error Err.indexError := by
  refine ⟨by decide, by decide, by decide, ?_, ?_⟩
  · intro frow hf
    simp at hf
  · exact c8_mismatch_fatal exRvf [[], [], [], []] (colmapOf 6) 0 exRow1 (by decide)
      (by decide) (by decide) (fun frow hf => by simp at hf)

end Pfin
